import Mathlib

/-!
Shallow embedding of the callisto music-notation compiler core
(crates/callisto-interpreter: syntax.rs, parser.rs, midi.rs).

Strings are modelled as lists of characters; spans are half-open index
ranges into that list (the concrete inputs of interest are ASCII, where
byte indices and character indices coincide).  Rust panics (integer
division by zero, `unwrap` failures, out-of-bounds indexing) are modelled
as explicit error values, kept distinct from the spanned parsing errors
the code returns on purpose.
-/

namespace Callisto

/-- Decidable equality for `Except`, used to evaluate the embedded
pipeline on concrete inputs. -/
instance {ε α : Type _} [DecidableEq ε] [DecidableEq α] : DecidableEq (Except ε α) := fun x y =>
  match x, y with
  | .error a, .error b =>
    if h : a = b then isTrue (congrArg Except.error h)
    else isFalse fun hc => h (Except.error.inj hc)
  | .error _, .ok _ => isFalse fun hc => Except.noConfusion hc
  | .ok _, .error _ => isFalse fun hc => Except.noConfusion hc
  | .ok a, .ok b =>
    if h : a = b then isTrue (congrArg Except.ok h)
    else isFalse fun hc => h (Except.ok.inj hc)

/-- Classified lexemes, translated from the `Token` enum of syntax.rs.
The `Rest` lexeme is referenced by parser.rs (`Token::Rest`) but its
declaration is absent from syntax.rs in the tree under scrutiny.
Modelled from the spec: the rest keyword is the letter `z`
(spec test case `z|1`), tokenized like the other literal keywords. -/
inductive Token where
  | Whitespace
  | Number
  | Sharp
  | NoteName
  | Flat
  | Colon
  | Bar
  | Slash
  | Backslash
  | OBrace
  | CBrace
  | OBracket
  | CBracket
  | Tempo
  | Time
  | ChordQuality
  | ChordExtension
  | Rest
  deriving Repr, DecidableEq

/-- A token together with its span in the source, as in `SpannedToken`
of parser.rs.  The `input` reference carried by the Rust struct is
threaded through the parser functions as a separate argument, since all
tokens of one parse refer to the same input string. -/
structure SpannedToken where
  span : Nat × Nat
  token : Token
  deriving Repr, DecidableEq

/-- Whitespace characters of the logos rule `[ \t\n\f]+`. -/
def isWsChar (c : Char) : Bool :=
  c = ' ' ∨ c = '\t' ∨ c = '\n' ∨ c = '\x0c'

/-- Length of the maximal run of characters satisfying `p` at the head. -/
def takeWhileLen (p : Char → Bool) : List Char → Nat
  | [] => 0
  | c :: cs => if p c then takeWhileLen p cs + 1 else 0

/-- Match length of a literal token rule (the literal's length when the
input starts with it, otherwise 0). -/
def matchLiteral (lit : List Char) (s : List Char) : Nat :=
  if lit.isPrefixOf s then lit.length else 0

/-- Match length of the note-name rule `[A-Ga-g]`. -/
def noteNameLen : List Char → Nat
  | [] => 0
  | c :: _ =>
    if (('A' ≤ c ∧ c ≤ 'G') ∨ ('a' ≤ c ∧ c ≤ 'g')) then 1 else 0

/-- Match length of the chord-quality rule `maj|min|dim|aug`. -/
def chordQualityLen (s : List Char) : Nat :=
  if ['m','a','j'].isPrefixOf s ∨ ['m','i','n'].isPrefixOf s ∨
     ['d','i','m'].isPrefixOf s ∨ ['a','u','g'].isPrefixOf s then 3 else 0

/-- Match length of the chord-extension rule `add9|add11|add13`. -/
def chordExtensionLen (s : List Char) : Nat :=
  if ['a','d','d','1','1'].isPrefixOf s ∨ ['a','d','d','1','3'].isPrefixOf s then 5
  else if ['a','d','d','9'].isPrefixOf s then 4
  else 0

/-- Candidate (match length, token) pairs for every lexer rule at the
head of `s`.  Order encodes logos' tie-breaking priorities for matches of
equal length: the only overlapping same-length rules are `Flat`
(priority 4) and `NoteName` (priority 3) on the letter `b`, so `Flat` is
listed first. -/
def tokenCandidates (s : List Char) : List (Nat × Token) :=
  [ (takeWhileLen isWsChar s, Token.Whitespace),
    (takeWhileLen Char.isDigit s, Token.Number),
    (matchLiteral ['#'] s, Token.Sharp),
    (matchLiteral ['b'] s, Token.Flat),
    (noteNameLen s, Token.NoteName),
    (matchLiteral [':'] s, Token.Colon),
    (matchLiteral ['|'] s, Token.Bar),
    (matchLiteral ['/'] s, Token.Slash),
    (matchLiteral ['\\'] s, Token.Backslash),
    (matchLiteral ['\x7b'] s, Token.OBrace),
    (matchLiteral ['\x7d'] s, Token.CBrace),
    (matchLiteral ['['] s, Token.OBracket),
    (matchLiteral [']'] s, Token.CBracket),
    (matchLiteral ['t','e','m','p','o'] s, Token.Tempo),
    (matchLiteral ['t','i','m','e'] s, Token.Time),
    (chordQualityLen s, Token.ChordQuality),
    (chordExtensionLen s, Token.ChordExtension),
    (matchLiteral ['z'] s, Token.Rest) ]

/-- Longest-match selection: keep the earliest candidate of maximal
length (strictly greater length displaces, equal keeps the earlier,
which encodes rule priority). -/
def pickLongest : List (Nat × Token) → Option (Nat × Token)
  | [] => none
  | c :: cs =>
    match pickLongest cs with
    | none => if c.1 = 0 then none else some c
    | some best => if c.1 = 0 then some best else if best.1 > c.1 then some best else some c

/-- One step of the tokenizer: the token matched at the head of `s`,
with its length, or `none` when no rule matches (a lexing error). -/
def nextToken (s : List Char) : Option (Nat × Token) :=
  pickLongest (tokenCandidates s)

/-- The tokenizer loop of `parse` in parser.rs: scan the whole input
into spanned tokens, or report the span of the first failure.  `fuel`
bounds the recursion; it is called with more fuel than the input length,
and every step consumes at least one character. -/
def tokenizeLoop (fuel : Nat) (s : List Char) (pos : Nat)
    (acc : List SpannedToken) : Except (Nat × Nat) (List SpannedToken) :=
  match fuel with
  | 0 => Except.error (pos, pos)
  | fuel + 1 =>
    match s with
    | [] => Except.ok acc.reverse
    | _ =>
      match nextToken s with
      | none => Except.error (pos, pos + 1)
      | some (len, tok) =>
        tokenizeLoop fuel (s.drop len) (pos + len)
          (⟨(pos, pos + len), tok⟩ :: acc)

/-- Tokenize a whole input. -/
def tokenize (input : List Char) : Except (Nat × Nat) (List SpannedToken) :=
  tokenizeLoop (input.length + 1) input 0 []

/-! ## Abstract syntax tree, translated from syntax.rs. -/

/-- `Tempo` of syntax.rs: beats per minute, a `u32`. -/
structure Tempo where
  tempo : Nat
  deriving Repr, DecidableEq

/-- `TimeSignature` of syntax.rs.  The Rust struct stores both fields as
`NonZeroU8`; the embedding stores plain naturals and routes the non-zero
requirement through `TimeSignature.new` below, which models the
`NonZeroU8::new(..).unwrap()` calls of the constructor. -/
structure TimeSignature where
  numerator : Nat
  denominator : Nat
  deriving Repr, DecidableEq

/-- `NonZeroU8::new`: `none` exactly when the value is zero (the
`unwrap` of a `none` is a Rust panic). -/
def NonZeroU8new (n : Nat) : Option Nat :=
  if n = 0 then none else some n

/-- `TimeSignature::new` of syntax.rs: both components pass through
`NonZeroU8::new(..).unwrap()`; a zero component makes the constructor
panic, modelled by `none`. -/
def TimeSignature.new (numerator denominator : Nat) : Option TimeSignature :=
  match NonZeroU8new numerator with
  | none => none
  | some nn =>
    match NonZeroU8new denominator with
    | none => none
    | some dd => some ⟨nn, dd⟩

/-- `NoteName` of syntax.rs. -/
inductive NoteName where
  | A | B | C | D | E | F | G
  deriving Repr, DecidableEq

/-- `Accidental` of syntax.rs. -/
inductive Accidental where
  | Sharp | Flat | Natural
  deriving Repr, DecidableEq

/-- `NoteLength` of syntax.rs: fixed fractional lengths or a number of
bars. -/
inductive NoteLength where
  | SixtyFourth | ThirtySecond | Sixteenth | Eighth | Quarter | Half | Whole
  | Bars (n : Nat)
  deriving Repr, DecidableEq

/-- `ChordQuality` of syntax.rs. -/
inductive ChordQuality where
  | Major | Minor | Diminished | Augmented
  deriving Repr, DecidableEq

/-- `ChordExtension` of syntax.rs. -/
inductive ChordExtension where
  | Sixth | Seventh | Ninth | Eleventh | Thirteenth
  deriving Repr, DecidableEq

/-- `SingleNote` of syntax.rs. -/
structure SingleNote where
  note_name : NoteName
  octave_number : Int
  note_length : NoteLength
  accidental : Accidental
  deriving Repr, DecidableEq

/-- `ChordNote` of syntax.rs (no duration of its own). -/
structure ChordNote where
  note_name : NoteName
  octave_number : Int
  accidental : Accidental
  deriving Repr, DecidableEq

/-- `ChordName` of syntax.rs. -/
structure ChordName where
  root : NoteName
  root_accidental : Accidental
  root_octave_number : Int
  quality : ChordQuality
  extensions : List ChordExtension
  deriving Repr, DecidableEq

/-- `ListChord` of syntax.rs. -/
structure ListChord where
  notes : List ChordNote
  note_length : NoteLength
  deriving Repr, DecidableEq

/-- `NamedChord` of syntax.rs. -/
structure NamedChord where
  chord_name : ChordName
  note_length : NoteLength
  deriving Repr, DecidableEq

/-- `SeqEvent` of syntax.rs.  The `Rest` variant is matched by
parser.rs (`SeqEvent::Rest`) and midi.rs but absent from the `SeqEvent`
declaration in syntax.rs of the tree under scrutiny.
Modelled from the spec: `Rest(duration)` is silence of the given
duration that advances the cursor and emits no sounding event. -/
inductive SeqEvent where
  | Single (note : SingleNote)
  | ListChord (chord : ListChord)
  | NamedChord (chord : NamedChord)
  | Rest (note_length : NoteLength)
  deriving Repr, DecidableEq

/-- `Sequence` of syntax.rs. -/
structure Sequence where
  tempo : Option Tempo := none
  time_signature : Option TimeSignature := none
  notes : List SeqEvent := []
  deriving Repr, DecidableEq

/-- `Statement` of syntax.rs. -/
inductive Statement where
  | Sequence (s : Sequence)
  deriving Repr, DecidableEq

/-- `Root` of syntax.rs. -/
structure Root where
  statements : List Statement := []
  deriving Repr, DecidableEq

/-- `ChordQuality::from_str` of syntax.rs. -/
def ChordQuality.from_str (s : List Char) : Option ChordQuality :=
  if s = ['m','a','j'] then some .Major
  else if s = ['m','i','n'] then some .Minor
  else if s = ['d','i','m'] then some .Diminished
  else if s = ['a','u','g'] then some .Augmented
  else none

/-- `ChordExtension::from_str` of syntax.rs. -/
def ChordExtension.from_str (s : List Char) : Option ChordExtension :=
  if s = ['a','d','d','6'] then some .Sixth
  else if s = ['a','d','d','9'] then some .Ninth
  else if s = ['a','d','d','1','1'] then some .Eleventh
  else if s = ['a','d','d','1','3'] then some .Thirteenth
  else none

/-- `NoteName::from_str` of syntax.rs (uppercase single letters only). -/
def NoteName.from_str (s : List Char) : Option NoteName :=
  if s = ['A'] then some .A
  else if s = ['B'] then some .B
  else if s = ['C'] then some .C
  else if s = ['D'] then some .D
  else if s = ['E'] then some .E
  else if s = ['F'] then some .F
  else if s = ['G'] then some .G
  else none

/-- `NoteLength::from_str` of syntax.rs: exact match against the seven
recognized fractional lengths. -/
def NoteLength.from_str (s : List Char) : Option NoteLength :=
  if s = ['6','4'] then some .SixtyFourth
  else if s = ['3','2'] then some .ThirtySecond
  else if s = ['1','6'] then some .Sixteenth
  else if s = ['8'] then some .Eighth
  else if s = ['4'] then some .Quarter
  else if s = ['2'] then some .Half
  else if s = ['1'] then some .Whole
  else none

/-- `NoteLength::ticks` of syntax.rs.  The `Bars` branch matches on the
time-signature denominator and panics on an unsupported value, modelled
by `none`; every other branch is total. -/
def NoteLength.ticks (nl : NoteLength) (ticks_per_beat : Nat)
    (time_signature : TimeSignature) : Option Nat :=
  match nl with
  | .SixtyFourth => some (ticks_per_beat / 16)
  | .ThirtySecond => some (ticks_per_beat / 8)
  | .Sixteenth => some (ticks_per_beat / 4)
  | .Eighth => some (ticks_per_beat / 2)
  | .Quarter => some ticks_per_beat
  | .Half => some (ticks_per_beat * 2)
  | .Whole => some (ticks_per_beat * 4)
  | .Bars bars =>
    match time_signature.denominator with
    | 1 => some (ticks_per_beat * 4 * bars * time_signature.numerator)
    | 2 => some (ticks_per_beat * 2 * bars * time_signature.numerator)
    | 4 => some (ticks_per_beat * bars * time_signature.numerator)
    | 8 => some (ticks_per_beat / 2 * bars * time_signature.numerator)
    | 16 => some (ticks_per_beat / 4 * bars * time_signature.numerator)
    | 32 => some (ticks_per_beat / 8 * bars * time_signature.numerator)
    | 64 => some (ticks_per_beat / 16 * bars * time_signature.numerator)
    | _ => none

/-! ## Parser, translated from parser.rs -/

/-- Iteration core of `line_column` of parser.rs: walk the characters
carrying the running index, line and column. -/
def lineColumnGo : List Char → Nat → Nat → Nat → Nat → Option (Nat × Nat)
  | [], i, index, line, column =>
    if index = i then some (line, column) else none
  | c :: cs, i, index, line, column =>
    if i = index then some (line, column)
    else if c = '\n' then lineColumnGo cs (i + 1) index (line + 1) 1
    else lineColumnGo cs (i + 1) index line (column + 1)

/-- `line_column` of parser.rs: 1-based line and column of a character
index, `none` when the index is past the end of the input. -/
def line_column (input : List Char) (index : Nat) : Option (Nat × Nat) :=
  lineColumnGo input 0 index 1 1

/-- `ParsingError` of parser.rs. -/
inductive ParsingError where
  | lexingError
  | eoi
  | unexpectedToken (t : Token)
  | invalidNoteName (s : List Char)
  | invalidNoteLength (n : Int)
  | invalidChordQuality (s : List Char)
  | invalidChordExtension (s : List Char)
  | parseIntError
  deriving Repr, DecidableEq

/-- `SpannedParsingError` of parser.rs. -/
structure SpannedParsingError where
  input : List Char
  span : Nat × Nat
  line : Nat
  column : Nat
  error : ParsingError
  deriving Repr, DecidableEq

/-- `SpannedParsingError::slice`: the literal source text at the span. -/
def SpannedParsingError.slice (e : SpannedParsingError) : List Char :=
  (e.input.drop e.span.1).take (e.span.2 - e.span.1)

/-- Failure of a parser function: either a spanned error the code
returns, or a Rust panic (an `unwrap` failure or out-of-bounds index). -/
inductive PFail where
  | err (e : SpannedParsingError)
  | panic
  deriving Repr, DecidableEq

/-- `ParsingError::spanned` of parser.rs.  The `line_column(..).unwrap()`
call panics when the span start is out of range. -/
def ParsingError.spanned (e : ParsingError) (input : List Char)
    (span : Nat × Nat) : PFail :=
  match line_column input span.1 with
  | some (l, c) => .err ⟨input, span, l, c, e⟩
  | none => .panic

/-- `ParsingError::spanned_from_token` of parser.rs. -/
def ParsingError.spanned_from_token (e : ParsingError) (input : List Char)
    (token : SpannedToken) : PFail :=
  e.spanned input token.span

/-- The literal source text of a token (Rust `SpannedToken::slice`). -/
def tokenSlice (input : List Char) (t : SpannedToken) : List Char :=
  (input.drop t.span.1).take (t.span.2 - t.span.1)

/-- `TokenStream` of parser.rs: the immutable token sequence, a cursor,
and the checkpoint stack. -/
structure TokenStream where
  tokens : List SpannedToken
  current : Nat
  checkpoints : List Nat
  deriving Repr, DecidableEq

/-- `TokenStream::new`. -/
def TokenStream.new (tokens : List SpannedToken) : TokenStream :=
  ⟨tokens, 0, []⟩

/-- `TokenStream::bump` of parser.rs: return the current token and
advance.  At the end of input it reports `Eoi` spanned at the first
token; indexing `tokens[0]` of an empty stream is a panic. -/
def TokenStream.bump (ts : TokenStream) (input : List Char) :
    (Except PFail SpannedToken) × TokenStream :=
  if ts.current ≥ ts.tokens.length then
    match ts.tokens with
    | [] => (.error .panic, ts)
    | t0 :: _ => (.error (ParsingError.eoi.spanned input t0.span), ts)
  else
    match ts.tokens.get? ts.current with
    | some t => (.ok t, { ts with current := ts.current + 1 })
    | none => (.error .panic, ts)

/-- `TokenStream::peek` of parser.rs: the current token without
advancing. -/
def TokenStream.peek (ts : TokenStream) (input : List Char) :
    Except PFail SpannedToken :=
  match ts.tokens.get? ts.current with
  | some t => .ok t
  | none =>
    match ts.tokens with
    | [] => .error .panic
    | t0 :: _ => .error (ParsingError.eoi.spanned input t0.span)

/-- `TokenStream::expect` of parser.rs: bump, and when the token is not
of the expected kind, step the cursor back and report the token as
unexpected. -/
def TokenStream.expect (ts : TokenStream) (input : List Char)
    (expected : Token) : (Except PFail SpannedToken) × TokenStream :=
  match ts.bump input with
  | (.error e, ts1) => (.error e, ts1)
  | (.ok token, ts1) =>
    if token.token = expected then (.ok token, ts1)
    else
      (.error ((ParsingError.unexpectedToken token.token).spanned_from_token input token),
        { ts1 with current := ts1.current - 1 })

/-- `TokenStream::skip_whitespace` of parser.rs: discard one whitespace
token when it is next. -/
def TokenStream.skip_whitespace (ts : TokenStream) (input : List Char) :
    TokenStream :=
  match ts.peek input with
  | .ok token => if token.token = Token.Whitespace then (ts.bump input).2 else ts
  | .error _ => ts

/-- Numeric value of a decimal digit run, `none` when the slice is empty
or has a non-digit (Rust `str::parse` failure on the slices at hand). -/
def digitsVal (s : List Char) : Option Nat :=
  if s.isEmpty then none
  else if s.all Char.isDigit then
    some (s.foldl (fun a c => a * 10 + (c.toNat - 48)) 0)
  else none

/-- Rust `str::parse::<u32>` on a token slice. -/
def parseU32 (s : List Char) : Option Nat :=
  match digitsVal s with
  | some v => if v < 4294967296 then some v else none
  | none => none

/-- Rust `str::parse::<u8>` on a token slice. -/
def parseU8 (s : List Char) : Option Nat :=
  match digitsVal s with
  | some v => if v < 256 then some v else none
  | none => none

/-- Rust `str::parse::<i32>` on a token slice (the `Number` lexeme is an
unsigned digit run, so the value is non-negative). -/
def parseI32 (s : List Char) : Option Int :=
  match digitsVal s with
  | some v => if v < 2147483648 then some (Int.ofNat v) else none
  | none => none

/-- `parse_tempo` of parser.rs. -/
def parse_tempo (input : List Char) (ts : TokenStream) :
    (Except PFail Nat) × TokenStream :=
  match ts.expect input Token.Number with
  | (.error e, ts1) => (.error e, ts1)
  | (.ok token, ts1) =>
    match parseU32 (tokenSlice input token) with
    | some tempo => (.ok tempo, ts1)
    | none => (.error (ParsingError.parseIntError.spanned_from_token input token), ts1)

/-- `parse_time_signature` of parser.rs: numerator, optional whitespace,
denominator, then `TimeSignature::new` whose `unwrap` panics on a zero
component. -/
def parse_time_signature (input : List Char) (ts : TokenStream) :
    (Except PFail TimeSignature) × TokenStream :=
  match ts.expect input Token.Number with
  | (.error e, ts1) => (.error e, ts1)
  | (.ok token, ts1) =>
    match parseU8 (tokenSlice input token) with
    | none => (.error (ParsingError.parseIntError.spanned_from_token input token), ts1)
    | some numerator =>
      let ts2 := ts1.skip_whitespace input
      match ts2.expect input Token.Number with
      | (.error e, ts3) => (.error e, ts3)
      | (.ok token2, ts3) =>
        match parseU8 (tokenSlice input token2) with
        | none => (.error (ParsingError.parseIntError.spanned_from_token input token2), ts3)
        | some denominator =>
          match TimeSignature.new numerator denominator with
          | some tsig => (.ok tsig, ts3)
          | none => (.error .panic, ts3)

/-- `parse_note_name` of parser.rs. -/
def parse_note_name (input : List Char) (ts : TokenStream) :
    (Except PFail NoteName) × TokenStream :=
  match ts.expect input Token.NoteName with
  | (.error e, ts1) => (.error e, ts1)
  | (.ok token, ts1) =>
    match NoteName.from_str (tokenSlice input token) with
    | some name => (.ok name, ts1)
    | none =>
      (.error ((ParsingError.invalidNoteName (tokenSlice input token)).spanned_from_token input token), ts1)

/-- `parse_accidental` of parser.rs: optional and greedy, defaulting to
`Natural`. -/
def parse_accidental (input : List Char) (ts : TokenStream) :
    (Except PFail Accidental) × TokenStream :=
  match ts.peek input with
  | .error e => (.error e, ts)
  | .ok token =>
    match token.token with
    | Token.Sharp =>
      match ts.bump input with
      | (.error e, ts1) => (.error e, ts1)
      | (.ok _, ts1) => (.ok .Sharp, ts1)
    | Token.Flat =>
      match ts.bump input with
      | (.error e, ts1) => (.error e, ts1)
      | (.ok _, ts1) => (.ok .Flat, ts1)
    | _ => (.ok .Natural, ts)

/-- `parse_octave_number` of parser.rs. -/
def parse_octave_number (input : List Char) (ts : TokenStream) :
    (Except PFail Int) × TokenStream :=
  match ts.expect input Token.Number with
  | (.error e, ts1) => (.error e, ts1)
  | (.ok token, ts1) =>
    match parseI32 (tokenSlice input token) with
    | some octave => (.ok octave, ts1)
    | none => (.error (ParsingError.parseIntError.spanned_from_token input token), ts1)

/-- `parse_note_length` of parser.rs: `:` plus a number in the fixed
fractional table, or `|` plus a bar count; any other number is an
invalid-note-length error spanned at the number token. -/
def parse_note_length (input : List Char) (ts : TokenStream) :
    (Except PFail NoteLength) × TokenStream :=
  match ts.peek input with
  | .error e => (.error e, ts)
  | .ok token =>
    match token.token with
    | Token.Colon =>
      match ts.bump input with
      | (.error e, ts1) => (.error e, ts1)
      | (.ok _, ts1) =>
        match ts1.expect input Token.Number with
        | (.error e, ts2) => (.error e, ts2)
        | (.ok token2, ts2) =>
          match NoteLength.from_str (tokenSlice input token2) with
          | some nl => (.ok nl, ts2)
          | none =>
            (.error ((ParsingError.invalidNoteLength 0).spanned_from_token input token2), ts2)
    | Token.Bar =>
      match ts.bump input with
      | (.error e, ts1) => (.error e, ts1)
      | (.ok _, ts1) =>
        match ts1.expect input Token.Number with
        | (.error e, ts2) => (.error e, ts2)
        | (.ok token2, ts2) =>
          match parseU32 (tokenSlice input token2) with
          | some length => (.ok (NoteLength.Bars length), ts2)
          | none =>
            (.error ((ParsingError.invalidNoteLength 0).spanned_from_token input token2), ts2)
    | _ =>
      (.error ((ParsingError.unexpectedToken token.token).spanned_from_token input token), ts)

/-- `parse_single_note` of parser.rs. -/
def parse_single_note (input : List Char) (ts : TokenStream) :
    (Except PFail SingleNote) × TokenStream :=
  match parse_note_name input ts with
  | (.error e, ts1) => (.error e, ts1)
  | (.ok note_name, ts1) =>
    match parse_accidental input ts1 with
    | (.error e, ts2) => (.error e, ts2)
    | (.ok accidental, ts2) =>
      match parse_octave_number input ts2 with
      | (.error e, ts3) => (.error e, ts3)
      | (.ok octave_number, ts3) =>
        match parse_note_length input ts3 with
        | (.error e, ts4) => (.error e, ts4)
        | (.ok note_length, ts4) =>
          (.ok ⟨note_name, octave_number, note_length, accidental⟩, ts4)

/-- Loop body of `parse_list_chord` of parser.rs: collect note triples
until the closing bracket.  Fuel bounds the recursion; every iteration
that continues consumes at least one token, and running out of fuel is
modelled as a panic (it cannot happen from the top-level entry point). -/
def parse_list_chord_loop (input : List Char) :
    Nat → List ChordNote → TokenStream →
    (Except PFail (List ChordNote)) × TokenStream
  | 0, _, ts => (.error .panic, ts)
  | fuel + 1, notes, ts =>
    match ts.peek input with
    | .error e => (.error e, ts)
    | .ok token =>
      match token.token with
      | Token.Whitespace =>
        match ts.bump input with
        | (.error e, ts1) => (.error e, ts1)
        | (.ok _, ts1) => parse_list_chord_loop input fuel notes ts1
      | Token.CBracket =>
        match ts.bump input with
        | (.error e, ts1) => (.error e, ts1)
        | (.ok _, ts1) => (.ok notes, ts1)
      | _ =>
        match parse_note_name input ts with
        | (.error e, ts1) => (.error e, ts1)
        | (.ok note, ts1) =>
          match parse_accidental input ts1 with
          | (.error e, ts2) => (.error e, ts2)
          | (.ok accidental, ts2) =>
            match parse_octave_number input ts2 with
            | (.error e, ts3) => (.error e, ts3)
            | (.ok octave_number, ts3) =>
              parse_list_chord_loop input fuel
                (notes ++ [⟨note, octave_number, accidental⟩]) ts3

/-- `parse_list_chord` of parser.rs: the note loop followed by the
chord's single trailing duration. -/
def parse_list_chord (input : List Char) (ts : TokenStream) :
    (Except PFail ListChord) × TokenStream :=
  match parse_list_chord_loop input (ts.tokens.length + 1) [] ts with
  | (.error e, ts1) => (.error e, ts1)
  | (.ok notes, ts1) =>
    match parse_note_length input ts1 with
    | (.error e, ts2) => (.error e, ts2)
    | (.ok note_length, ts2) => (.ok ⟨notes, note_length⟩, ts2)

/-- `parse_chord_quality` of parser.rs. -/
def parse_chord_quality (input : List Char) (ts : TokenStream) :
    (Except PFail ChordQuality) × TokenStream :=
  match ts.expect input Token.ChordQuality with
  | (.error e, ts1) => (.error e, ts1)
  | (.ok token, ts1) =>
    match ChordQuality.from_str (tokenSlice input token) with
    | some quality => (.ok quality, ts1)
    | none =>
      (.error ((ParsingError.invalidChordQuality (tokenSlice input token)).spanned_from_token input token), ts1)

/-- Loop of `parse_chord_extensions` of parser.rs: greedily accept
extension keywords and the bare-`7` shorthand, stopping without error at
the first non-matching token. -/
def parse_chord_extensions_loop (input : List Char) :
    Nat → List ChordExtension → TokenStream →
    (Except PFail (List ChordExtension)) × TokenStream
  | 0, _, ts => (.error .panic, ts)
  | fuel + 1, extensions, ts =>
    match ts.peek input with
    | .error e => (.error e, ts)
    | .ok token =>
      match token.token with
      | Token.Number =>
        if tokenSlice input token = ['7'] then
          match ts.bump input with
          | (.error e, ts1) => (.error e, ts1)
          | (.ok _, ts1) =>
            parse_chord_extensions_loop input fuel (extensions ++ [.Seventh]) ts1
        else
          (.error ((ParsingError.invalidChordExtension (tokenSlice input token)).spanned_from_token input token), ts)
      | Token.ChordExtension =>
        match ChordExtension.from_str (tokenSlice input token) with
        | none =>
          (.error ((ParsingError.invalidChordExtension (tokenSlice input token)).spanned_from_token input token), ts)
        | some extension =>
          match ts.bump input with
          | (.error e, ts1) => (.error e, ts1)
          | (.ok _, ts1) =>
            parse_chord_extensions_loop input fuel (extensions ++ [extension]) ts1
      | _ => (.ok extensions, ts)

/-- `parse_chord_extensions` of parser.rs. -/
def parse_chord_extensions (input : List Char) (ts : TokenStream) :
    (Except PFail (List ChordExtension)) × TokenStream :=
  parse_chord_extensions_loop input (ts.tokens.length + 1) [] ts

/-- `parse_chord_name` of parser.rs. -/
def parse_chord_name (input : List Char) (ts : TokenStream) :
    (Except PFail ChordName) × TokenStream :=
  match parse_note_name input ts with
  | (.error e, ts1) => (.error e, ts1)
  | (.ok root, ts1) =>
    match parse_accidental input ts1 with
    | (.error e, ts2) => (.error e, ts2)
    | (.ok root_accidental, ts2) =>
      match parse_octave_number input ts2 with
      | (.error e, ts3) => (.error e, ts3)
      | (.ok root_octave_number, ts3) =>
        match parse_chord_quality input ts3 with
        | (.error e, ts4) => (.error e, ts4)
        | (.ok quality, ts4) =>
          match parse_chord_extensions input ts4 with
          | (.error e, ts5) => (.error e, ts5)
          | (.ok extensions, ts5) =>
            (.ok ⟨root, root_accidental, root_octave_number, quality, extensions⟩, ts5)

/-- `parse_named_chord` of parser.rs. -/
def parse_named_chord (input : List Char) (ts : TokenStream) :
    (Except PFail NamedChord) × TokenStream :=
  match parse_chord_name input ts with
  | (.error e, ts1) => (.error e, ts1)
  | (.ok chord_name, ts1) =>
    match parse_note_length input ts1 with
    | (.error e, ts2) => (.error e, ts2)
    | (.ok note_length, ts2) => (.ok ⟨chord_name, note_length⟩, ts2)

/-- Loop of `parse_sequence` of parser.rs: dispatch on the lookahead
token until the closing brace. -/
def parse_sequence_loop (input : List Char) :
    Nat → Sequence → TokenStream → (Except PFail Sequence) × TokenStream
  | 0, _, ts => (.error .panic, ts)
  | fuel + 1, sequence, ts =>
    match ts.peek input with
    | .error e => (.error e, ts)
    | .ok token =>
      match token.token with
      | Token.Whitespace =>
        match ts.bump input with
        | (.error e, ts1) => (.error e, ts1)
        | (.ok _, ts1) => parse_sequence_loop input fuel sequence ts1
      | Token.CBrace =>
        match ts.bump input with
        | (.error e, ts1) => (.error e, ts1)
        | (.ok _, ts1) => (.ok sequence, ts1)
      | Token.Tempo =>
        match ts.bump input with
        | (.error e, ts1) => (.error e, ts1)
        | (.ok _, ts1) =>
          match ts1.expect input Token.Whitespace with
          | (.error e, ts2) => (.error e, ts2)
          | (.ok _, ts2) =>
            match parse_tempo input ts2 with
            | (.error e, ts3) => (.error e, ts3)
            | (.ok tempo, ts3) =>
              parse_sequence_loop input fuel { sequence with tempo := some ⟨tempo⟩ } ts3
      | Token.Time =>
        match ts.bump input with
        | (.error e, ts1) => (.error e, ts1)
        | (.ok _, ts1) =>
          match ts1.expect input Token.Whitespace with
          | (.error e, ts2) => (.error e, ts2)
          | (.ok _, ts2) =>
            match parse_time_signature input ts2 with
            | (.error e, ts3) => (.error e, ts3)
            | (.ok time_signature, ts3) =>
              parse_sequence_loop input fuel
                { sequence with time_signature := some time_signature } ts3
      | Token.Backslash =>
        match ts.bump input with
        | (.error e, ts1) => (.error e, ts1)
        | (.ok _, ts1) =>
          match parse_named_chord input ts1 with
          | (.error e, ts2) => (.error e, ts2)
          | (.ok chord, ts2) =>
            parse_sequence_loop input fuel
              { sequence with notes := sequence.notes ++ [SeqEvent.NamedChord chord] } ts2
      | Token.OBracket =>
        match ts.bump input with
        | (.error e, ts1) => (.error e, ts1)
        | (.ok _, ts1) =>
          match parse_list_chord input ts1 with
          | (.error e, ts2) => (.error e, ts2)
          | (.ok chord, ts2) =>
            parse_sequence_loop input fuel
              { sequence with notes := sequence.notes ++ [SeqEvent.ListChord chord] } ts2
      | Token.NoteName =>
        match parse_single_note input ts with
        | (.error e, ts1) => (.error e, ts1)
        | (.ok note, ts1) =>
          parse_sequence_loop input fuel
            { sequence with notes := sequence.notes ++ [SeqEvent.Single note] } ts1
      | Token.Rest =>
        match ts.bump input with
        | (.error e, ts1) => (.error e, ts1)
        | (.ok _, ts1) =>
          match parse_note_length input ts1 with
          | (.error e, ts2) => (.error e, ts2)
          | (.ok note_length, ts2) =>
            parse_sequence_loop input fuel
              { sequence with notes := sequence.notes ++ [SeqEvent.Rest note_length] } ts2
      | _ =>
        (.error ((ParsingError.unexpectedToken token.token).spanned_from_token input token), ts)

/-- `parse_sequence` of parser.rs. -/
def parse_sequence (input : List Char) (ts : TokenStream) :
    (Except PFail Sequence) × TokenStream :=
  parse_sequence_loop input (ts.tokens.length + 1) {} ts

/-- Loop of the top-level `parse` of parser.rs: skip whitespace, parse a
sequence at each opening brace, reject anything else. -/
def parse_root_loop (input : List Char) :
    Nat → Root → TokenStream → Except PFail Root
  | 0, _, _ => .error .panic
  | fuel + 1, ast, ts =>
    if ts.current ≥ ts.tokens.length then .ok ast
    else
      match ts.peek input with
      | .error e => .error e
      | .ok token =>
        match token.token with
        | Token.Whitespace =>
          match ts.bump input with
          | (.error e, _) => .error e
          | (.ok _, ts1) => parse_root_loop input fuel ast ts1
        | Token.OBrace =>
          match ts.bump input with
          | (.error e, _) => .error e
          | (.ok _, ts1) =>
            match parse_sequence input ts1 with
            | (.error e, _) => .error e
            | (.ok sequence, ts2) =>
              parse_root_loop input fuel
                { ast with statements := ast.statements ++ [Statement.Sequence sequence] } ts2
        | _ =>
          .error ((ParsingError.unexpectedToken token.token).spanned_from_token input token)

/-- `parse` of parser.rs: tokenize, then run the top-level loop. -/
def parse (input : List Char) : Except PFail Root :=
  match tokenize input with
  | .error span => .error (ParsingError.lexingError.spanned input span)
  | .ok tokens =>
    parse_root_loop input (tokens.length + 1) {} (TokenStream.new tokens)

/-! ## Timeline compiler, translated from midi.rs -/

/-- `TICKS_PER_BEAT` of midi.rs. -/
def TICKS_PER_BEAT : Nat := 96

/-- `MAJOR_SCALE` of midi.rs. -/
def MAJOR_SCALE : List Nat := [0, 2, 4, 5, 7, 9, 11]

/-- `MINOR_SCALE` of midi.rs. -/
def MINOR_SCALE : List Nat := [0, 2, 3, 5, 7, 8, 10]

/-- `DIMINISHED_SCALE` of midi.rs. -/
def DIMINISHED_SCALE : List Nat := [0, 2, 3, 5, 6, 8, 10]

/-- `AUGMENTED_SCALE` of midi.rs. -/
def AUGMENTED_SCALE : List Nat := [0, 2, 4, 5, 7, 9, 11]

/-- Indexing into a fixed seven-entry scale table (`scale[i]` on the
Rust `[u8; 7]`; every use site is in bounds). -/
def scaleGet (scale : List Nat) (i : Nat) : Nat :=
  scale.getD i 0

/-- The midly restricted integers mask out-of-range bits: `u7::new`. -/
def u7new (n : Nat) : Nat := n % 128

/-- The midly restricted integers mask out-of-range bits: `u24::new`. -/
def u24new (n : Nat) : Nat := n % 16777216

/-- The midly restricted integers mask out-of-range bits: `u28::new`. -/
def u28new (n : Nat) : Nat := n % 268435456

/-- `midi_note` of midi.rs: semitone offset of the letter, accidental
adjustment, then the two-octave shift, with the mandatory `[0, 127]`
range check.  The failure branch is a Rust panic, modelled as `none`. -/
def midi_note (name : NoteName) (accidental : Accidental) (octave : Int) :
    Option Nat :=
  let note : Int :=
    match name with
    | .C => 0
    | .D => 2
    | .E => 4
    | .F => 5
    | .G => 7
    | .A => 9
    | .B => 11
  let note1 : Int :=
    match accidental with
    | .Sharp => note + 1
    | .Flat => note - 1
    | .Natural => note
  let octave1 : Int := octave + 2
  let note2 : Int := note1 + octave1 * 12
  if 0 ≤ note2 ∧ note2 ≤ 127 then some note2.toNat else none

/-- Rust `Vec::dedup`: remove consecutive repeated elements. -/
def dedupAdj : List Nat → List Nat
  | [] => []
  | [a] => [a]
  | a :: b :: rest =>
    if a = b then dedupAdj (b :: rest) else a :: dedupAdj (b :: rest)

/-- `midi_named_chord` of midi.rs: root, third and fifth from the
quality's scale table, one further pitch per requested extension, then
an ascending sort and adjacent deduplication.  A root outside the MIDI
range is the `midi_note` panic, modelled as `none`. -/
def midi_named_chord (chord : ChordName) : Option (List Nat) :=
  match midi_note chord.root chord.root_accidental chord.root_octave_number with
  | none => none
  | some root =>
    let scale :=
      match chord.quality with
      | .Major => MAJOR_SCALE
      | .Minor => MINOR_SCALE
      | .Diminished => DIMINISHED_SCALE
      | .Augmented => AUGMENTED_SCALE
    let c0 := [root, root + scaleGet scale 2, root + scaleGet scale 4]
    let c1 := if chord.extensions.contains ChordExtension.Sixth then
        c0 ++ [root + scaleGet scale 5] else c0
    let c2 := if chord.extensions.contains ChordExtension.Seventh then
        c1 ++ [root + scaleGet scale 6] else c1
    let c3 := if chord.extensions.contains ChordExtension.Ninth then
        c2 ++ [root + scaleGet scale 1 + 12] else c2
    let c4 := if chord.extensions.contains ChordExtension.Eleventh then
        c3 ++ [root + scaleGet scale 3 + 12] else c3
    let c5 := if chord.extensions.contains ChordExtension.Thirteenth then
        c4 ++ [root + scaleGet scale 5 + 12] else c4
    some (dedupAdj (c5.insertionSort (· ≤ ·)))

/-- Event payloads of the emitted track, after the midly constructors
used in `ast_to_midi` of midi.rs. -/
inductive TrackEventKind where
  | tempoMeta (microsPerBeat : Nat)
  | timeSigMeta (numerator denominator clocksPerClick thirtySecondsPerQuarter : Nat)
  | noteOn (channel key vel : Nat)
  | noteOff (channel key vel : Nat)
  | endOfTrack
  deriving Repr, DecidableEq

/-- A delta-timed track event (`TrackEvent` of midly). -/
structure TrackEvent where
  delta : Nat
  kind : TrackEventKind
  deriving Repr, DecidableEq

/-- Rust panics reachable from `ast_to_midi` of midi.rs, modelled as
explicit errors: indexing an empty statement list, the unguarded
`60_000_000 / tempo` with a zero tempo, the `midi_note` range check, and
the unsupported-denominator arm of `NoteLength::ticks`. -/
inductive CompileError where
  | emptyRoot
  | divByZero
  | noteOutOfRange
  | unsupportedDenominator
  deriving Repr, DecidableEq

/-- The emitted file: header resolution and the track list (`Smf` of
midly, with `Timing::Metrical(TICKS_PER_BEAT)`). -/
structure Smf where
  ticks_per_beat : Nat
  tracks : List (List TrackEvent)
  deriving Repr, DecidableEq

/-- The `SeqEvent::Single` arm of `ast_to_midi`: flush the accumulator
into the note-on delta, advance by the note's length, flush again into
the note-off delta. -/
def compileSingle (tsig : TimeSignature) (acc : Nat) (note : SingleNote) :
    Except CompileError (List TrackEvent × Nat) :=
  match midi_note note.note_name note.accidental note.octave_number with
  | none => .error .noteOutOfRange
  | some key =>
    match note.note_length.ticks TICKS_PER_BEAT tsig with
    | none => .error .unsupportedDenominator
    | some len =>
      .ok ([⟨u28new acc, .noteOn 0 key 127⟩, ⟨u28new (0 + len), .noteOff 0 key 0⟩], 0)

/-- The `SeqEvent::ListChord` loop of `ast_to_midi`: the `first` flag is
the Rust `i == 0` test.  The first note flushes the accumulator into its
note-on delta, advances once by the chord's duration and flushes that
into its note-off delta; every later note carries zero deltas.  Returns
the accumulated on events, off events and the accumulator. -/
def listChordLoop (tsig : TimeSignature) (len : NoteLength) :
    List ChordNote → Bool → Nat → List TrackEvent → List TrackEvent →
    Except CompileError (List TrackEvent × List TrackEvent × Nat)
  | [], _, acc, ons, offs => .ok (ons, offs, acc)
  | note :: rest, first, acc, ons, offs =>
    match midi_note note.note_name note.accidental note.octave_number with
    | none => .error .noteOutOfRange
    | some key =>
      if first then
        match len.ticks TICKS_PER_BEAT tsig with
        | none => .error .unsupportedDenominator
        | some L =>
          listChordLoop tsig len rest false 0
            (ons ++ [⟨u28new acc, .noteOn 0 key 127⟩])
            (offs ++ [⟨u28new (0 + L), .noteOff 0 key 0⟩])
      else
        listChordLoop tsig len rest false acc
          (ons ++ [⟨u28new 0, .noteOn 0 key 127⟩])
          (offs ++ [⟨u28new 0, .noteOff 0 key 0⟩])

/-- The `SeqEvent::NamedChord` loop of `ast_to_midi`, over the pitch
list already resolved by `midi_named_chord` (each pitch goes through
`u7::new`). -/
def namedChordLoop (tsig : TimeSignature) (len : NoteLength) :
    List Nat → Bool → Nat → List TrackEvent → List TrackEvent →
    Except CompileError (List TrackEvent × List TrackEvent × Nat)
  | [], _, acc, ons, offs => .ok (ons, offs, acc)
  | note :: rest, first, acc, ons, offs =>
    let key := u7new note
    if first then
      match len.ticks TICKS_PER_BEAT tsig with
      | none => .error .unsupportedDenominator
      | some L =>
        namedChordLoop tsig len rest false 0
          (ons ++ [⟨u28new acc, .noteOn 0 key 127⟩])
          (offs ++ [⟨u28new (0 + L), .noteOff 0 key 0⟩])
    else
      namedChordLoop tsig len rest false acc
        (ons ++ [⟨u28new 0, .noteOn 0 key 127⟩])
        (offs ++ [⟨u28new 0, .noteOff 0 key 0⟩])

/-- One event of the `ast_to_midi` loop: the emitted track events and
the updated tick accumulator. -/
def compileEvent (tsig : TimeSignature) (acc : Nat) :
    SeqEvent → Except CompileError (List TrackEvent × Nat)
  | .Rest note_length =>
    match note_length.ticks TICKS_PER_BEAT tsig with
    | none => .error .unsupportedDenominator
    | some L => .ok ([], acc + L)
  | .Single note => compileSingle tsig acc note
  | .ListChord chord =>
    match listChordLoop tsig chord.note_length chord.notes true acc [] [] with
    | .error e => .error e
    | .ok (ons, offs, acc1) => .ok (ons ++ offs, acc1)
  | .NamedChord named_chord =>
    match midi_named_chord named_chord.chord_name with
    | none => .error .noteOutOfRange
    | some chord_notes =>
      match namedChordLoop tsig named_chord.note_length chord_notes true acc [] [] with
      | .error e => .error e
      | .ok (ons, offs, acc1) => .ok (ons ++ offs, acc1)

/-- The event loop of `ast_to_midi` over the whole sequence. -/
def compileEvents (tsig : TimeSignature) :
    List SeqEvent → Nat → Except CompileError (List TrackEvent)
  | [], _ => .ok []
  | e :: rest, acc =>
    match compileEvent tsig acc e with
    | .error err => .error err
    | .ok (evs, acc1) =>
      match compileEvents tsig rest acc1 with
      | .error err => .error err
      | .ok evs1 => .ok (evs ++ evs1)

/-- `ast_to_midi` of midi.rs: the first statement's sequence (indexing
an empty list is a panic), the tempo meta from the unguarded
`60_000_000 / tempo` division (a zero tempo is a division-by-zero
panic), the time-signature meta carrying the raw numerator and
denominator, the compiled events, and the end-of-track marker. -/
def ast_to_midi (ast : Root) : Except CompileError Smf :=
  match ast.statements with
  | [] => .error .emptyRoot
  | Statement.Sequence notes :: _ =>
    let tempo : Nat :=
      match notes.tempo with
      | some t => t.tempo
      | none => 120
    if tempo = 0 then .error .divByZero
    else
      let tempoMicros := 60000000 / tempo
      let tsig : TimeSignature :=
        match notes.time_signature with
        | some t => t
        | none => (TimeSignature.new 4 4).getD ⟨4, 4⟩
      match compileEvents tsig notes.notes 0 with
      | .error e => .error e
      | .ok evs =>
        .ok ⟨TICKS_PER_BEAT,
          [⟨0, .tempoMeta (u24new tempoMicros)⟩ ::
            ⟨0, .timeSigMeta tsig.numerator tsig.denominator 36 8⟩ ::
            evs ++ [⟨0, .endOfTrack⟩]]⟩

/-- End-to-end pipeline: parse, compile, extract the single track.
`none` when either stage fails. -/
def compile (input : List Char) : Option (List TrackEvent) :=
  match parse input with
  | .error _ => none
  | .ok root =>
    match ast_to_midi root with
    | .error _ => none
    | .ok smf => smf.tracks.head?

/-- The (delta, key) pairs of the note-on events of a track, in order. -/
def noteOnEvents : List TrackEvent → List (Nat × Nat)
  | [] => []
  | e :: rest =>
    match e.kind with
    | .noteOn _ key _ => (e.delta, key) :: noteOnEvents rest
    | _ => noteOnEvents rest

/-- The (delta, key) pairs of the note-off events of a track, in order. -/
def noteOffEvents : List TrackEvent → List (Nat × Nat)
  | [] => []
  | e :: rest =>
    match e.kind with
    | .noteOff _ key _ => (e.delta, key) :: noteOffEvents rest
    | _ => noteOffEvents rest

/-! ## Concrete inputs and expected outputs for the claims. -/

/-- Source text of `\x7b z|1 C4:4 \x7d` (a one-bar rest then a quarter
note, braces written as characters). -/
def input_rest_bar : List Char :=
  ['\x7b', ' ', 'z', '|', '1', ' ', 'C', '4', ':', '4', ' ', '\x7d']

/-- Source text of `\x7b C4:4 \x7d`. -/
def input_single_c4 : List Char :=
  ['\x7b', ' ', 'C', '4', ':', '4', ' ', '\x7d']

/-- Source text of `\x7b [C4 E4 G4]:4 \x7d`. -/
def input_list_chord : List Char :=
  ['\x7b', ' ', '[', 'C', '4', ' ', 'E', '4', ' ', 'G', '4', ']', ':', '4', ' ', '\x7d']

/-- Source text of `\x7b \C4maj7:4 \x7d`. -/
def input_named_chord : List Char :=
  ['\x7b', ' ', '\\', 'C', '4', 'm', 'a', 'j', '7', ':', '4', ' ', '\x7d']

/-- Source text of `\x7b C4:3 \x7d` (3 is not a recognized note
length). -/
def input_bad_length : List Char :=
  ['\x7b', ' ', 'C', '4', ':', '3', ' ', '\x7d']

/-- Source text of `\x7b tempo 0 \x7d`. -/
def input_tempo_zero : List Char :=
  ['\x7b', ' ', 't', 'e', 'm', 'p', 'o', ' ', '0', ' ', '\x7d']

/-- Source text of `\x7b time 0 4 \x7d`. -/
def input_time_zero : List Char :=
  ['\x7b', ' ', 't', 'i', 'm', 'e', ' ', '0', ' ', '4', ' ', '\x7d']

/-- Track the pipeline emits for `input_single_c4`. -/
def track_single_c4 : List TrackEvent :=
  [⟨0, .tempoMeta 500000⟩, ⟨0, .timeSigMeta 4 4 36 8⟩,
   ⟨0, .noteOn 0 72 127⟩, ⟨96, .noteOff 0 72 0⟩, ⟨0, .endOfTrack⟩]

/-- Track the pipeline emits for `input_rest_bar`. -/
def track_rest_bar : List TrackEvent :=
  [⟨0, .tempoMeta 500000⟩, ⟨0, .timeSigMeta 4 4 36 8⟩,
   ⟨384, .noteOn 0 72 127⟩, ⟨96, .noteOff 0 72 0⟩, ⟨0, .endOfTrack⟩]

/-- Track the pipeline emits for `input_list_chord`. -/
def track_list_chord : List TrackEvent :=
  [⟨0, .tempoMeta 500000⟩, ⟨0, .timeSigMeta 4 4 36 8⟩,
   ⟨0, .noteOn 0 72 127⟩, ⟨0, .noteOn 0 76 127⟩, ⟨0, .noteOn 0 79 127⟩,
   ⟨96, .noteOff 0 72 0⟩, ⟨0, .noteOff 0 76 0⟩, ⟨0, .noteOff 0 79 0⟩,
   ⟨0, .endOfTrack⟩]

/-- The chord name parsed from `\C4maj7`. -/
def chordC4maj7 : ChordName :=
  ⟨.C, .Natural, 4, .Major, [.Seventh]⟩

/-- The AST parsed from `input_tempo_zero`. -/
def root_tempo_zero : Root :=
  ⟨[Statement.Sequence ⟨some ⟨0⟩, none, []⟩]⟩

/-- The spanned error reported for `input_bad_length`. -/
def err_bad_length : SpannedParsingError :=
  ⟨input_bad_length, (5, 6), 1, 6, .invalidNoteLength 0⟩

/-! ## Definitions following the spec's wording, for comparison with
the code-derived definitions above. -/

/-- Following the spec's wording: the base semitone per note letter
(C=0, D=2, E=4, F=5, G=7, A=9, B=11). -/
def noteBaseSemitone : NoteName → Int
  | .C => 0
  | .D => 2
  | .E => 4
  | .F => 5
  | .G => 7
  | .A => 9
  | .B => 11

/-- Following the spec's wording: the accidental adjustment (+1 sharp,
-1 flat, 0 natural). -/
def accidentalAdjust : Accidental → Int
  | .Sharp => 1
  | .Flat => -1
  | .Natural => 0

/-- Following the spec's wording: the note kind that one unit of the
time-signature denominator stands for (denominator 4 means a quarter
note, and so on). -/
def denominatorKind : Nat → Option NoteLength
  | 1 => some .Whole
  | 2 => some .Half
  | 4 => some .Quarter
  | 8 => some .Eighth
  | 16 => some .Sixteenth
  | 32 => some .ThirtySecond
  | 64 => some .SixtyFourth
  | _ => none

/-- The keys of a list chord's notes in declaration order, `none` as
soon as one falls outside the MIDI range (the order in which the Rust
loop calls `midi_note`). -/
def chordKeys : List ChordNote → Option (List Nat)
  | [] => some []
  | note :: rest =>
    match midi_note note.note_name note.accidental note.octave_number with
    | none => none
    | some k =>
      match chordKeys rest with
      | none => none
      | some ks => some (k :: ks)

/-! ## Helper lemmas. -/

/-- Adjacent deduplication only drops elements. -/
theorem dedupAdj_sublist : ∀ l : List Nat, List.Sublist (dedupAdj l) l
  | [] => by simp [dedupAdj]
  | [a] => by simp [dedupAdj]
  | a :: b :: rest => by
    rw [dedupAdj]
    split
    · exact (dedupAdj_sublist (b :: rest)).cons a
    · exact (dedupAdj_sublist (b :: rest)).cons₂ a

/-- Adjacent deduplication of a weakly sorted list is strictly
sorted. -/
theorem dedupAdj_sorted_lt : ∀ l : List Nat,
    l.Sorted (· ≤ ·) → (dedupAdj l).Sorted (· < ·)
  | [] => by intro h; simp [dedupAdj]
  | [a] => by intro h; simp [dedupAdj]
  | a :: b :: rest => by
    intro h
    obtain ⟨ha, hrest⟩ := List.sorted_cons.mp h
    rw [dedupAdj]
    split
    · exact dedupAdj_sorted_lt (b :: rest) hrest
    · rename_i hab
      refine List.sorted_cons.mpr ⟨?_, dedupAdj_sorted_lt (b :: rest) hrest⟩
      intro x hx
      have hxmem : x ∈ b :: rest := (dedupAdj_sublist (b :: rest)).subset hx
      rcases List.mem_cons.mp hxmem with rfl | hxr
      · exact lt_of_le_of_ne (ha x (List.mem_cons_self _ _)) hab
      · have hab' : a < b := lt_of_le_of_ne (ha b (List.mem_cons_self _ _)) hab
        exact lt_of_lt_of_le hab' ((List.sorted_cons.mp hrest).1 x hxr)

/-- Past its first iteration the list-chord loop appends one zero-delta
note-on and one zero-delta note-off per remaining note, leaves the
accumulator alone, and cannot fail once every key resolves. -/
theorem listChordLoop_nonfirst (tsig : TimeSignature) (len : NoteLength) :
    ∀ (notes : List ChordNote) (ks : List Nat) (acc : Nat)
      (ons offs : List TrackEvent),
    chordKeys notes = some ks →
    listChordLoop tsig len notes false acc ons offs =
      .ok (ons ++ ks.map (fun k => ⟨0, .noteOn 0 k 127⟩),
        offs ++ ks.map (fun k => ⟨0, .noteOff 0 k 0⟩), acc)
  | [], ks, acc, ons, offs => by
    intro h
    simp only [chordKeys, Option.some.injEq] at h
    subst h
    simp [listChordLoop]
  | note :: rest, ks, acc, ons, offs => by
    intro h
    simp only [chordKeys] at h
    cases hk : midi_note note.note_name note.accidental note.octave_number with
    | none => rw [hk] at h; exact absurd h (by simp)
    | some k =>
      rw [hk] at h
      cases hks : chordKeys rest with
      | none => rw [hks] at h; exact absurd h (by simp)
      | some ks2 =>
        rw [hks] at h
        simp only [Option.some.injEq] at h
        subst h
        rw [listChordLoop, hk]
        simp only [Bool.false_eq_true, if_false]
        rw [listChordLoop_nonfirst tsig len rest ks2 acc _ _ hks]
        simp [u28new, List.append_assoc]

/-- A bump either fails and leaves the stream untouched, or succeeds
and advances the cursor by exactly one. -/
theorem bump_cases (ts : TokenStream) (input : List Char) :
    (∃ e, ts.bump input = (Except.error e, ts)) ∨
    (∃ t, ts.bump input = (Except.ok t, { ts with current := ts.current + 1 })) := by
  obtain ⟨tok, cur, cps⟩ := ts
  simp only [TokenStream.bump]
  split
  · cases tok with
    | nil => exact Or.inl ⟨_, rfl⟩
    | cons t0 rest => exact Or.inl ⟨_, rfl⟩
  · cases hg : tok.get? cur with
    | none => simp only [hg]; exact Or.inl ⟨_, rfl⟩
    | some t => simp only [hg]; exact Or.inr ⟨t, rfl⟩

/-! ## Claim theorems. -/

/-- Claim C7: parsing the input with the unrecognized note length `3`
fails with an invalid-note-length error whose reported slice is exactly
the source text `3`. -/
theorem invalid_note_length_slice_is_3 :
    parse input_bad_length = .error (.err err_bad_length) ∧
    err_bad_length.error = ParsingError.invalidNoteLength 0 ∧
    err_bad_length.slice = ['3'] := by
  refine ⟨by decide, by decide, by decide⟩

/-- Claim C9: the parser accepts a declared tempo of zero, and the
unguarded microseconds-per-beat division in `ast_to_midi` then reaches
the division-by-zero branch. -/
theorem tempo_zero_reaches_division_by_zero :
    parse input_tempo_zero = .ok root_tempo_zero ∧
    ast_to_midi root_tempo_zero = .error CompileError.divByZero := by
  refine ⟨by decide, by decide⟩

/-- Claim C10: parsing a time signature with a zero component panics in
`TimeSignature::new` instead of returning a spanned parsing error, and
the constructor succeeds exactly when both components are at least
one. -/
theorem time_signature_zero_panics :
    parse input_time_zero = .error PFail.panic ∧
    ∀ n d : Nat, (TimeSignature.new n d).isSome = true ↔ 1 ≤ n ∧ 1 ≤ d := by
  refine ⟨by decide, ?_⟩
  intro n d
  match n, d with
  | 0, d => simp [TimeSignature.new, NonZeroU8new]
  | n + 1, 0 => simp [TimeSignature.new, NonZeroU8new]
  | n + 1, d + 1 => simp [TimeSignature.new, NonZeroU8new]

/-- Witness for claim C10 at the 3/4 time signature. -/
theorem time_signature_zero_panics_witness :
    (TimeSignature.new 3 4).isSome = true ↔ 1 ≤ 3 ∧ 1 ≤ 4 :=
  time_signature_zero_panics.2 3 4

/-- Claim C4: the emitted time-signature meta event's second field is
the raw declared denominator (4 under the default 4/4), not its
power-of-two exponent (2), contradicting the stated output
interface. -/
theorem time_signature_meta_carries_raw_denominator :
    compile input_single_c4 = some track_single_c4 ∧
    track_single_c4.get? 1 = some ⟨0, .timeSigMeta 4 4 36 8⟩ ∧
    (4 : Nat) ≠ 2 := by
  refine ⟨by decide, by decide, by decide⟩

/-- Claim C1: a rest advances the tick accumulator by its duration and
emits no event, and compiling the one-bar-rest input makes the following
note-on carry a delta of one full 4/4 bar (384 ticks at 96 ticks per
beat). -/
theorem rest_advances_without_events :
    (∀ (tsig : TimeSignature) (acc : Nat) (len : NoteLength) (L : Nat),
      NoteLength.ticks len TICKS_PER_BEAT tsig = some L →
      compileEvent tsig acc (SeqEvent.Rest len) = .ok ([], acc + L)) ∧
    compile input_rest_bar = some track_rest_bar ∧
    noteOnEvents track_rest_bar = [(384, 72)] := by
  refine ⟨?_, by decide, by decide⟩
  intro tsig acc len L h
  simp [compileEvent, h]

/-- Witness for claim C1 at the one-bar rest under the default 4/4 time
signature. -/
theorem rest_advances_without_events_witness :
    NoteLength.ticks (NoteLength.Bars 1) TICKS_PER_BEAT ⟨4, 4⟩ = some 384 ∧
    compileEvent ⟨4, 4⟩ 0 (SeqEvent.Rest (NoteLength.Bars 1)) = .ok ([], 0 + 384) :=
  ⟨by decide, rest_advances_without_events.1 ⟨4, 4⟩ 0 (NoteLength.Bars 1) 384 (by decide)⟩

/-- Claim C2 counterexample: compiling the single note input yields a
note-on at pitch 72, not 60 — the two-octave shift of `midi_note` puts
declared octave 4 at (4 + 2) * 12 = 72. -/
theorem single_c4_pitch_is_72_not_60 :
    compile input_single_c4 = some track_single_c4 ∧
    noteOnEvents track_single_c4 = [(0, 72)] ∧
    (72 : Nat) ≠ 60 := by
  refine ⟨by decide, by decide, by decide⟩

/-- Claim C2 (amended): compiling the single note input yields exactly
one note-on/note-off pair at pitch 72 with note-off delta 96, and in
general `midi_note` resolves a pitch as the letter's semitone offset
plus the accidental adjustment plus (declared octave + 2) * 12, with the
mandatory range check. -/
theorem single_c4_compiles_to_pitch_72 :
    compile input_single_c4 = some track_single_c4 ∧
    noteOnEvents track_single_c4 = [(0, 72)] ∧
    noteOffEvents track_single_c4 = [(96, 72)] ∧
    ∀ (name : NoteName) (acc : Accidental) (oct : Int),
      midi_note name acc oct =
        (let v := noteBaseSemitone name + accidentalAdjust acc + (oct + 2) * 12
         if 0 ≤ v ∧ v ≤ 127 then some v.toNat else none) := by
  refine ⟨by decide, by decide, by decide, ?_⟩
  intro name acc oct
  cases name <;> cases acc <;>
    simp [midi_note, noteBaseSemitone, accidentalAdjust]

/-- Witness for claim C2 at letter C, natural, declared octave 4. -/
theorem single_c4_compiles_to_pitch_72_witness :
    midi_note NoteName.C Accidental.Natural 4 =
      (let v := noteBaseSemitone NoteName.C + accidentalAdjust Accidental.Natural + ((4 : Int) + 2) * 12
       if 0 ≤ v ∧ v ≤ 127 then some v.toNat else none) :=
  single_c4_compiles_to_pitch_72.2.2.2 NoteName.C Accidental.Natural 4

/-- Claim C3 counterexample: the named chord `C4maj7` resolves to the
pitch set 72, 76, 79, 83, not 60, 64, 67, 71 (the root is 72 under the
two-octave shift). -/
theorem named_chord_c4maj7_not_claimed_set :
    midi_named_chord chordC4maj7 = some [72, 76, 79, 83] ∧
    ([72, 76, 79, 83] : List Nat) ≠ [60, 64, 67, 71] := by
  refine ⟨by decide, by decide⟩

/-- Claim C3 (amended): `C4maj7` — as parsed from the source text —
resolves to the ascending pitch set 72, 76, 79, 83; requesting the
seventh twice gives the same set; and every resolved named chord is
strictly ascending and duplicate-free. -/
theorem named_chord_c4maj7_resolution :
    parse input_named_chord =
      .ok ⟨[Statement.Sequence ⟨none, none,
        [SeqEvent.NamedChord ⟨chordC4maj7, NoteLength.Quarter⟩]⟩]⟩ ∧
    midi_named_chord chordC4maj7 = some [72, 76, 79, 83] ∧
    midi_named_chord ⟨.C, .Natural, 4, .Major, [.Seventh, .Seventh]⟩ =
      some [72, 76, 79, 83] ∧
    ∀ (chord : ChordName) (l : List Nat),
      midi_named_chord chord = some l → l.Sorted (· < ·) ∧ l.Nodup := by
  refine ⟨by decide, by decide, by decide, ?_⟩
  intro chord l h
  simp only [midi_named_chord] at h
  cases hroot : midi_note chord.root chord.root_accidental chord.root_octave_number with
  | none => rw [hroot] at h; exact absurd h (by simp)
  | some root =>
    rw [hroot] at h
    simp only [Option.some.injEq] at h
    subst h
    constructor
    · exact dedupAdj_sorted_lt _ (List.sorted_insertionSort (· ≤ ·) _)
    · exact List.Pairwise.imp (fun hlt => ne_of_lt hlt)
        (dedupAdj_sorted_lt _ (List.sorted_insertionSort (· ≤ ·) _))

/-- Witness for claim C3 at the chord `C4maj7`. -/
theorem named_chord_c4maj7_resolution_witness :
    List.Sorted (· < ·) [72, 76, 79, 83] ∧ ([72, 76, 79, 83] : List Nat).Nodup :=
  named_chord_c4maj7_resolution.2.2.2 chordC4maj7 [72, 76, 79, 83] (by decide)

/-- Claim C5: compiling a non-empty list chord emits all note-on events
first with deltas (accumulated gap, 0, ..., 0), then all note-off
events with deltas (chord duration, 0, ..., 0), and leaves the
accumulator flushed; the concrete three-note chord input shows the
(0,0,0) / (96,0,0) pattern end to end. -/
theorem list_chord_simultaneity :
    (∀ (tsig : TimeSignature) (acc : Nat) (n0 : ChordNote)
       (rest : List ChordNote) (len : NoteLength) (k0 L : Nat) (ks : List Nat),
      midi_note n0.note_name n0.accidental n0.octave_number = some k0 →
      chordKeys rest = some ks →
      NoteLength.ticks len TICKS_PER_BEAT tsig = some L →
      compileEvent tsig acc (SeqEvent.ListChord ⟨n0 :: rest, len⟩) =
        .ok ((⟨u28new acc, .noteOn 0 k0 127⟩ ::
              ks.map (fun k => ⟨0, .noteOn 0 k 127⟩)) ++
          (⟨u28new L, .noteOff 0 k0 0⟩ ::
              ks.map (fun k => ⟨0, .noteOff 0 k 0⟩)), 0)) ∧
    compile input_list_chord = some track_list_chord ∧
    noteOnEvents track_list_chord = [(0, 72), (0, 76), (0, 79)] ∧
    noteOffEvents track_list_chord = [(96, 72), (0, 76), (0, 79)] := by
  refine ⟨?_, by decide, by decide, by decide⟩
  intro tsig acc n0 rest len k0 L ks hk0 hks hL
  simp only [compileEvent, listChordLoop, hk0, hL, if_true]
  rw [listChordLoop_nonfirst tsig len rest ks 0 _ _ hks]
  simp [u28new]

/-- Witness for claim C5 at a two-note chord with a pending accumulated
gap of 7 ticks. -/
theorem list_chord_simultaneity_witness :
    midi_note NoteName.C Accidental.Natural 4 = some 72 ∧
    chordKeys [⟨NoteName.E, 4, Accidental.Natural⟩] = some [76] ∧
    NoteLength.ticks NoteLength.Quarter TICKS_PER_BEAT ⟨4, 4⟩ = some 96 ∧
    compileEvent ⟨4, 4⟩ 7
        (SeqEvent.ListChord ⟨[⟨NoteName.C, 4, Accidental.Natural⟩,
          ⟨NoteName.E, 4, Accidental.Natural⟩], NoteLength.Quarter⟩) =
      .ok ((⟨u28new 7, .noteOn 0 72 127⟩ ::
            List.map (fun k => ⟨0, .noteOn 0 k 127⟩) [76]) ++
        (⟨u28new 96, .noteOff 0 72 0⟩ ::
            List.map (fun k => ⟨0, .noteOff 0 k 0⟩) [76]), 0) :=
  ⟨by decide, by decide, by decide,
    list_chord_simultaneity.1 ⟨4, 4⟩ 7 ⟨NoteName.C, 4, Accidental.Natural⟩
      [⟨NoteName.E, 4, Accidental.Natural⟩] NoteLength.Quarter 72 96 [76]
      (by decide) (by decide) (by decide)⟩

/-- Claim C6: for every time signature with a power-of-two denominator
up to 64, the tick value of a bar count equals the ticks of one
denominator-kind note times the numerator times the bar count; under
3/4 one bar is 288 ticks at 96 ticks per beat. -/
theorem bars_ticks_match_time_signature :
    (∀ (tpb num den n : Nat), den ∈ ([1, 2, 4, 8, 16, 32, 64] : List Nat) →
      ∃ kind dt, denominatorKind den = some kind ∧
        NoteLength.ticks kind tpb ⟨num, den⟩ = some dt ∧
        NoteLength.ticks (NoteLength.Bars n) tpb ⟨num, den⟩ =
          some (dt * num * n)) ∧
    NoteLength.ticks (NoteLength.Bars 1) 96 ⟨3, 4⟩ = some 288 := by
  refine ⟨?_, by decide⟩
  intro tpb num den n hden
  fin_cases hden <;>
    exact ⟨_, _, rfl, rfl, by simp only [NoteLength.ticks, Option.some.injEq]; ring⟩

/-- Witness for claim C6 under the 3/4 time signature. -/
theorem bars_ticks_match_time_signature_witness :
    ∃ kind dt, denominatorKind 4 = some kind ∧
      NoteLength.ticks kind 96 ⟨3, 4⟩ = some dt ∧
      NoteLength.ticks (NoteLength.Bars 1) 96 ⟨3, 4⟩ = some (dt * 3 * 1) :=
  bars_ticks_match_time_signature.1 96 3 4 1 (by decide)

/-- Claim C8: whenever `expect` returns an error, the cursor after the
call equals the cursor before the call. -/
theorem expect_failure_preserves_cursor :
    ∀ (ts : TokenStream) (input : List Char) (expected : Token) (e : PFail),
    (ts.expect input expected).1 = Except.error e →
    ((ts.expect input expected).2).current = ts.current := by
  intro ts input expected e h
  unfold TokenStream.expect at h ⊢
  rcases bump_cases ts input with ⟨e2, hb⟩ | ⟨t, hb⟩
  · rw [hb] at h ⊢
  · rw [hb] at h ⊢
    by_cases he : t.token = expected
    · simp [he] at h
    · simp only [he, if_false, if_neg he] at h ⊢
      simp

/-- Witness for claim C8: an `expect` for a number that finds a colon
fails and leaves the cursor at position zero. -/
theorem expect_failure_preserves_cursor_witness :
    ((TokenStream.mk [⟨(0, 1), Token.Colon⟩] 0 []).expect [':'] Token.Number).1 =
      Except.error (PFail.err ⟨[':'], (0, 1), 1, 1,
        ParsingError.unexpectedToken Token.Colon⟩) ∧
    ((TokenStream.mk [⟨(0, 1), Token.Colon⟩] 0 []).expect [':'] Token.Number).2.current = 0 :=
  ⟨by decide,
    expect_failure_preserves_cursor (TokenStream.mk [⟨(0, 1), Token.Colon⟩] 0 [])
      [':'] Token.Number
      (PFail.err ⟨[':'], (0, 1), 1, 1, ParsingError.unexpectedToken Token.Colon⟩)
      (by decide)⟩

end Callisto
